import Mathlib

/-!
Verification of the safe boundary layer of rust-openssl: the asymmetric key
operation context (`src/openssl/src/pkey_ctx.rs`) and the certificate
verification parameter store (`src/openssl/src/x509/verify.rs`).

The native cryptographic provider (OpenSSL itself, reached through `ffi`) is
an external collaborator; where its behaviour decides a property it is
modelled from the specification's description of the provider contract, with
a doc comment saying so.  Everything else is a direct shallow embedding of
the Rust source: byte buffers are `List Nat`, machine lengths are `Nat` with
the `c_int` bound written out, fallible calls return `Except`, and a Rust
panic (a failed `unwrap`) is the `none` of an outer `Option`.
-/

set_option maxHeartbeats 1000000

namespace RustOpenssl

/-- The error taxonomy of the safe layer: `engineError` carries the
provider's fault records (an `ErrorStack`), `invalidLength` is the local
precondition error named by the design documents for byte sequences whose
length does not fit the provider's signed length parameter. -/
inductive CryptoError where
  | engineError
  | invalidLength
deriving DecidableEq

/-- Modelled from the spec: the external cryptographic provider reached
through `ffi::EVP_PKEY_encrypt`, `ffi::EVP_PKEY_decrypt` and
`ffi::EVP_PKEY_derive` (the provider itself is out of scope of the
repository's `src/`).  For the current tuning state, `encBound`, `decBound`
and `derBound` are the upper bounds a size query reports, and `enc`, `dec`
and `der` are the bytes a real call produces.  The engine value doubles as
the native context's state: calls return the state they leave behind. -/
structure Engine where
  encBound : List Nat → Nat
  enc : List Nat → List Nat
  decBound : List Nat → Nat
  dec : List Nat → List Nat
  derBound : Nat
  der : List Nat

/-- Modelled from the spec: `ffi::EVP_PKEY_encrypt`.  With a null output
pointer it stores the upper bound through `written` and leaves the context
unmutated; with an output buffer whose capacity is `written` it writes the
ciphertext when it fits, reporting the exact count, and otherwise fails with
a provider fault.  Result: (written, buffer contents after the call, context
state after the call). -/
def EVP_PKEY_encrypt (e : Engine) (out? : Option (List Nat)) (written : Nat)
    (input : List Nat) : Except CryptoError (Nat × Option (List Nat) × Engine) :=
  match out? with
  | none => .ok (e.encBound input, none, e)
  | some buf =>
      let ct := e.enc input
      if ct.length ≤ written then
        .ok (ct.length, some (ct ++ buf.drop ct.length), e)
      else
        .error .engineError

/-- Modelled from the spec: `ffi::EVP_PKEY_decrypt`, as `EVP_PKEY_encrypt`. -/
def EVP_PKEY_decrypt (e : Engine) (out? : Option (List Nat)) (written : Nat)
    (input : List Nat) : Except CryptoError (Nat × Option (List Nat) × Engine) :=
  match out? with
  | none => .ok (e.decBound input, none, e)
  | some buf =>
      let pt := e.dec input
      if pt.length ≤ written then
        .ok (pt.length, some (pt ++ buf.drop pt.length), e)
      else
        .error .engineError

/-- Modelled from the spec: `ffi::EVP_PKEY_derive`, as `EVP_PKEY_encrypt`
but with no input buffer. -/
def EVP_PKEY_derive (e : Engine) (buf : Option (List Nat)) (len : Nat) :
    Except CryptoError (Nat × Option (List Nat) × Engine) :=
  match buf with
  | none => .ok (e.derBound, none, e)
  | some b =>
      if e.der.length ≤ len then
        .ok (e.der.length, some (e.der ++ b.drop e.der.length), e)
      else
        .error .engineError

/-- `PkeyCtxRef::encrypt` (pkey_ctx.rs lines 103-116): initialises `written`
to the supplied buffer's length (`0` for `None`), performs the native call
and returns the `written` count the call reports. -/
def encrypt (e : Engine) (input : List Nat) (out? : Option (List Nat)) :
    Except CryptoError (Nat × Option (List Nat) × Engine) :=
  let written := match out? with
    | none => 0
    | some b => b.length
  EVP_PKEY_encrypt e out? written input

/-- `PkeyCtxRef::decrypt` (pkey_ctx.rs lines 174-187), same shape as
`encrypt`. -/
def decrypt (e : Engine) (input : List Nat) (out? : Option (List Nat)) :
    Except CryptoError (Nat × Option (List Nat) × Engine) :=
  let written := match out? with
    | none => 0
    | some b => b.length
  EVP_PKEY_decrypt e out? written input

/-- `PkeyCtxRef::derive` (pkey_ctx.rs lines 203-214). -/
def derive (e : Engine) (buf : Option (List Nat)) :
    Except CryptoError (Nat × Option (List Nat) × Engine) :=
  let len := match buf with
    | none => 0
    | some b => b.length
  EVP_PKEY_derive e buf len

/-- `Vec::resize(n, 0)`: truncate, or extend with zero bytes, to length
`n`. -/
def vecResize (v : List Nat) (n : Nat) : List Nat :=
  if n ≤ v.length then v.take n else v ++ List.replicate (n - v.length) 0

/-- `PkeyCtxRef::encrypt_to_vec` (pkey_ctx.rs lines 119-126): record
`base = out.len()`, size query with `None`, `out.resize(base + len, 0)`,
real call on `out[base..]`, then `out.truncate(base + len)` with the real
call's count, which is returned. -/
def encrypt_to_vec (e : Engine) (input : List Nat) (out : List Nat) :
    Except CryptoError (Nat × List Nat × Engine) :=
  let base := out.length
  match encrypt e input none with
  | .error err => .error err
  | .ok (len, _, e1) =>
      let out1 := vecResize out (base + len)
      match encrypt e1 input (some (out1.drop base)) with
      | .error err => .error err
      | .ok (len2, buf2, e2) =>
          let out2 := out1.take base ++ buf2.getD (out1.drop base)
          .ok (len2, out2.take (base + len2), e2)

/-- `PkeyCtxRef::decrypt_to_vec` (pkey_ctx.rs lines 190-197). -/
def decrypt_to_vec (e : Engine) (input : List Nat) (out : List Nat) :
    Except CryptoError (Nat × List Nat × Engine) :=
  let base := out.length
  match decrypt e input none with
  | .error err => .error err
  | .ok (len, _, e1) =>
      let out1 := vecResize out (base + len)
      match decrypt e1 input (some (out1.drop base)) with
      | .error err => .error err
      | .ok (len2, buf2, e2) =>
          let out2 := out1.take base ++ buf2.getD (out1.drop base)
          .ok (len2, out2.take (base + len2), e2)

/-- `PkeyCtxRef::derive_to_vec` (pkey_ctx.rs lines 217-224). -/
def derive_to_vec (e : Engine) (out : List Nat) :
    Except CryptoError (Nat × List Nat × Engine) :=
  let base := out.length
  match derive e none with
  | .error err => .error err
  | .ok (len, _, e1) =>
      let out1 := vecResize out (base + len)
      match derive e1 (some (out1.drop base)) with
      | .error err => .error err
      | .ok (len2, buf2, e2) =>
          let out2 := out1.take base ++ buf2.getD (out1.drop base)
          .ok (len2, out2.take (base + len2), e2)

/-- Growing a vector to its own length plus `n` appends `n` zero bytes. -/
theorem vecResize_append (v : List Nat) (n : Nat) :
    vecResize v (v.length + n) = v ++ List.replicate n 0 := by
  unfold vecResize
  rcases Nat.eq_zero_or_pos n with h | h
  · subst h; simp
  · rw [if_neg (by omega)]
    simp

/-- Truncating `xs ++ ys ++ zs` to the combined length of `xs` and `ys`
keeps exactly `xs ++ ys`. -/
theorem take_len_append (xs ys zs : List Nat) :
    (xs ++ (ys ++ zs)).take (xs.length + ys.length) = xs ++ ys := by
  rw [← List.append_assoc]
  have h : xs.length + ys.length = (xs ++ ys).length := by simp
  rw [h, List.take_left]

/-! ## Allocation tracking for the OAEP label handoff -/

/-- The allocator state seen by `OPENSSL_malloc` and `OPENSSL_free`: block
identities stand in for pointers.  `live` holds the currently allocated
blocks, `freeEvents` records every pointer ever handed to `OPENSSL_free`
(newest first), so a double release shows up as a repeated entry. -/
structure Heap where
  nextId : Nat
  live : List Nat
  freeEvents : List Nat
deriving DecidableEq

/-- `ffi::OPENSSL_malloc`: returns a fresh block and the grown heap. -/
def OPENSSL_malloc (h : Heap) : Nat × Heap :=
  (h.nextId,
    { nextId := h.nextId + 1, live := h.nextId :: h.live, freeEvents := h.freeEvents })

/-- `ffi::OPENSSL_free p`: the block stops being live and the release is
recorded. -/
def OPENSSL_free (h : Heap) (p : Nat) : Heap :=
  { h with live := h.live.erase p, freeEvents := p :: h.freeEvents }

/-- The slice of operation-context state the OAEP label handoff touches: the
allocator and the label block the provider currently owns. -/
structure OaepCtx where
  heap : Heap
  providerLabel : Option Nat
deriving DecidableEq

/-- Modelled from the spec: `ffi::EVP_PKEY_CTX_set0_rsa_oaep_label` takes
ownership of the passed block on success and does not take ownership on
failure; `accepts` is the provider's verdict for this call. -/
def EVP_PKEY_CTX_set0_rsa_oaep_label (accepts : Bool) (st : OaepCtx) (p : Nat)
    (_len : Nat) : Except CryptoError OaepCtx :=
  if accepts then .ok { st with providerLabel := some p }
  else .error .engineError

/-- `PkeyCtxRef::set_rsa_oaep_label` (pkey_ctx.rs lines 306-321):
`c_int::try_from(label.len()).unwrap()` — a panic, modelled as `none`, when
the length exceeds `c_int::MAX` — then `OPENSSL_malloc` plus a byte copy,
then the provider handoff; when the handoff fails the just-allocated block
is freed by this function itself before the error is returned. -/
def set_rsa_oaep_label (accepts : Bool) (st : OaepCtx) (label : List Nat) :
    Option (Except CryptoError Unit × OaepCtx) :=
  if label.length < 2 ^ 31 then
    let alloc := OPENSSL_malloc st.heap
    let p := alloc.1
    let st1 : OaepCtx := { st with heap := alloc.2 }
    match EVP_PKEY_CTX_set0_rsa_oaep_label accepts st1 p label.length with
    | .ok st2 => some (.ok (), st2)
    | .error err => some (.error err, { st1 with heap := OPENSSL_free st1.heap p })
  else
    none

/-- The keyed-generation tuning state `set_keygen_mac_key` touches. -/
structure KeygenCtx where
  macKey : Option (List Nat)
deriving DecidableEq

/-- Modelled from the spec: `ffi::EVP_PKEY_CTX_ctrl` with operation
`EVP_PKEY_OP_KEYGEN` and control `EVP_PKEY_CTRL_SET_MAC_KEY` stores the seed
key, failing with a provider fault when the provider rejects the control for
the bound family (`accepts` is the provider's verdict). -/
def EVP_PKEY_CTX_ctrl_set_mac_key (accepts : Bool) (st : KeygenCtx)
    (key : List Nat) (_len : Nat) : Except CryptoError KeygenCtx :=
  if accepts then .ok { st with macKey := some key }
  else .error .engineError

/-- `PkeyCtxRef::set_keygen_mac_key` (pkey_ctx.rs lines 342-357):
`c_int::try_from(key.len()).unwrap()` — a panic, modelled as `none`, when
the length exceeds `c_int::MAX` — then the native control call. -/
def set_keygen_mac_key (accepts : Bool) (st : KeygenCtx) (key : List Nat) :
    Option (Except CryptoError Unit × KeygenCtx) :=
  if key.length < 2 ^ 31 then
    match EVP_PKEY_CTX_ctrl_set_mac_key accepts st key key.length with
    | .ok st2 => some (.ok (), st2)
    | .error err => some (.error err, st)
  else
    none

/-! ## The chain-validation flag table (x509/verify.rs) -/

namespace ffi

/-- Modelled from the spec: the provider's externally defined chain
validation policy constants (`X509_V_FLAG_*`, surfaced by openssl-sys,
which is not under `src/`).  The spec directs that these are an opaque
imported constant table whose exact bit values come from the external
policy definition; the values written here are OpenSSL's documented ones
(`x509_vfy.h`). -/
def X509_V_FLAG_CB_ISSUER_CHECK : Nat := 0x1

def X509_V_FLAG_USE_CHECK_TIME : Nat := 0x2

def X509_V_FLAG_CRL_CHECK : Nat := 0x4

def X509_V_FLAG_CRL_CHECK_ALL : Nat := 0x8

def X509_V_FLAG_IGNORE_CRITICAL : Nat := 0x10

def X509_V_FLAG_X509_STRICT : Nat := 0x20

def X509_V_FLAG_ALLOW_PROXY_CERTS : Nat := 0x40

def X509_V_FLAG_POLICY_CHECK : Nat := 0x80

def X509_V_FLAG_EXPLICIT_POLICY : Nat := 0x100

def X509_V_FLAG_INHIBIT_ANY : Nat := 0x200

def X509_V_FLAG_INHIBIT_MAP : Nat := 0x400

def X509_V_FLAG_NOTIFY_POLICY : Nat := 0x800

def X509_V_FLAG_EXTENDED_CRL_SUPPORT : Nat := 0x1000

def X509_V_FLAG_USE_DELTAS : Nat := 0x2000

def X509_V_FLAG_CHECK_SS_SIGNATURE : Nat := 0x4000

def X509_V_FLAG_TRUSTED_FIRST : Nat := 0x8000

def X509_V_FLAG_SUITEB_128_LOS_ONLY : Nat := 0x10000

def X509_V_FLAG_SUITEB_192_LOS : Nat := 0x20000

def X509_V_FLAG_SUITEB_128_LOS : Nat := 0x30000

def X509_V_FLAG_PARTIAL_CHAIN : Nat := 0x80000

def X509_V_FLAG_NO_ALT_CHAINS : Nat := 0x100000

def X509_V_FLAG_NO_CHECK_TIME : Nat := 0x200000

end ffi

namespace X509VerifyFlags

/-- The `bitflags!` table of `X509VerifyFlags` (verify.rs lines 28-51),
transcribed binding for binding: each named constant is bound to exactly the
`ffi` constant the source names on its line.  Lines 33-34 bind
`IGNORE_CRITICAL` to `ffi::X509_V_FLAG_X509_STRICT` and `X509_STRICT` to
`ffi::X509_V_FLAG_IGNORE_CRITICAL`, and lines 46-47 bind `SUITEB_192_LOS`
to `ffi::X509_V_FLAG_SUITEB_128_LOS` and `SUITEB_128_LOS` to
`ffi::X509_V_FLAG_SUITEB_192_LOS`. -/
def X509_V_FLAG_CB_ISSUER_CHECK : Nat := ffi.X509_V_FLAG_CB_ISSUER_CHECK

def X509_V_FLAG_USE_CHECK_TIME : Nat := ffi.X509_V_FLAG_USE_CHECK_TIME

def X509_V_FLAG_CRL_CHECK : Nat := ffi.X509_V_FLAG_CRL_CHECK

def X509_V_FLAG_CRL_CHECK_ALL : Nat := ffi.X509_V_FLAG_CRL_CHECK_ALL

def X509_V_FLAG_IGNORE_CRITICAL : Nat := ffi.X509_V_FLAG_X509_STRICT

def X509_V_FLAG_X509_STRICT : Nat := ffi.X509_V_FLAG_IGNORE_CRITICAL

def X509_V_FLAG_ALLOW_PROXY_CERTS : Nat := ffi.X509_V_FLAG_ALLOW_PROXY_CERTS

def X509_V_FLAG_POLICY_CHECK : Nat := ffi.X509_V_FLAG_POLICY_CHECK

def X509_V_FLAG_EXPLICIT_POLICY : Nat := ffi.X509_V_FLAG_EXPLICIT_POLICY

def X509_V_FLAG_INHIBIT_ANY : Nat := ffi.X509_V_FLAG_INHIBIT_ANY

def X509_V_FLAG_INHIBIT_MAP : Nat := ffi.X509_V_FLAG_INHIBIT_MAP

def X509_V_FLAG_NOTIFY_POLICY : Nat := ffi.X509_V_FLAG_NOTIFY_POLICY

def X509_V_FLAG_EXTENDED_CRL_SUPPORT : Nat := ffi.X509_V_FLAG_EXTENDED_CRL_SUPPORT

def X509_V_FLAG_USE_DELTAS : Nat := ffi.X509_V_FLAG_USE_DELTAS

def X509_V_FLAG_CHECK_SS_SIGNATURE : Nat := ffi.X509_V_FLAG_CHECK_SS_SIGNATURE

def X509_V_FLAG_TRUSTED_FIRST : Nat := ffi.X509_V_FLAG_TRUSTED_FIRST

def X509_V_FLAG_SUITEB_128_LOS_ONLY : Nat := ffi.X509_V_FLAG_SUITEB_128_LOS_ONLY

def X509_V_FLAG_SUITEB_192_LOS : Nat := ffi.X509_V_FLAG_SUITEB_128_LOS

def X509_V_FLAG_SUITEB_128_LOS : Nat := ffi.X509_V_FLAG_SUITEB_192_LOS

def X509_V_FLAG_PARTIAL_CHAIN : Nat := ffi.X509_V_FLAG_PARTIAL_CHAIN

def X509_V_FLAG_NO_ALT_CHAINS : Nat := ffi.X509_V_FLAG_NO_ALT_CHAINS

def X509_V_FLAG_NO_CHECK_TIME : Nat := ffi.X509_V_FLAG_NO_CHECK_TIME

end X509VerifyFlags

/-! ## The verification parameter store (x509/verify.rs) -/

/-- `X509VerifyParam`: the owned native parameter set; the slice of its
state the flag operations touch is the flag word (a `c_ulong` bitset). -/
structure X509VerifyParam where
  flags : Nat
deriving DecidableEq

/-- Modelled from the spec: `ffi::X509_VERIFY_PARAM_set_flags` ORs the
given bits into the stored flag word (the spec's invariant for the store:
"set" ORs bits in). -/
def X509_VERIFY_PARAM_set_flags (stored flags : Nat) : Nat := stored ||| flags

/-- Modelled from the spec: `ffi::X509_VERIFY_PARAM_clear_flags` ANDs the
given bits out of the stored flag word ("clear" ANDs bits out):
`Nat.ldiff stored flags` is `stored AND NOT flags` bit for bit. -/
def X509_VERIFY_PARAM_clear_flags (stored flags : Nat) : Nat :=
  Nat.ldiff stored flags

/-- Modelled from the spec: `ffi::X509_VERIFY_PARAM_get_flags` returns the
stored flag word unmodified ("get" returns the current union). -/
def X509_VERIFY_PARAM_get_flags (stored : Nat) : Nat := stored

/-- `X509VerifyParamRef::set_flags` (verify.rs lines 81-83). -/
def set_flags (param : X509VerifyParam) (flags : Nat) :
    Except CryptoError X509VerifyParam :=
  .ok { param with flags := X509_VERIFY_PARAM_set_flags param.flags flags }

/-- `X509VerifyParamRef::clear_flags` (verify.rs lines 90-98). -/
def clear_flags (param : X509VerifyParam) (flags : Nat) :
    Except CryptoError X509VerifyParam :=
  .ok { param with flags := X509_VERIFY_PARAM_clear_flags param.flags flags }

/-- `X509VerifyParamRef::get_flags` (verify.rs lines 105-108). -/
def get_flags (param : X509VerifyParam) : Nat :=
  X509_VERIFY_PARAM_get_flags param.flags

/-! ## set_ip (x509/verify.rs) -/

/-- `std::net::Ipv4Addr`: four octets. -/
structure Ipv4Addr where
  o0 : Nat
  o1 : Nat
  o2 : Nat
  o3 : Nat
deriving DecidableEq

/-- `Ipv4Addr::octets`. -/
def Ipv4Addr.octets (x : Ipv4Addr) : List Nat := [x.o0, x.o1, x.o2, x.o3]

/-- `std::net::Ipv6Addr`: sixteen octets. -/
structure Ipv6Addr where
  octetAt : Fin 16 → Nat

/-- `Ipv6Addr::octets`. -/
def Ipv6Addr.octets (x : Ipv6Addr) : List Nat := List.ofFn x.octetAt

/-- `std::net::IpAddr`. -/
inductive IpAddr where
  | V4 (addr : Ipv4Addr)
  | V6 (addr : Ipv6Addr)

/-- `X509VerifyParamRef::set_ip` (verify.rs lines 131-151): a 16 byte
buffer of zeroes, the address family's octets copied over its front
(`buf[..4].copy_from_slice` for v4, whole-buffer `copy_from_slice` for v6),
and the native call receives the buffer pointer together with the length
the match arm chose.  The model returns that (buffer, length) pair. -/
def set_ip (ip : IpAddr) : List Nat × Nat :=
  let buf : List Nat := List.replicate 16 0
  match ip with
  | .V4 addr => (addr.octets ++ buf.drop 4, 4)
  | .V6 addr => (addr.octets, 16)

/-- The byte sequence the native store receives from `set_ip`: the first
`len` bytes at the passed pointer. -/
def set_ip_supplied (ip : IpAddr) : List Nat :=
  (set_ip ip).1.take (set_ip ip).2

/-! ## Capability gating of the context's operations (pkey_ctx.rs) -/

/-- The phantom key-capability tag of a `PkeyCtx<T>`: what key material the
bound key exposes.  `noneBound` is `T = ()` from `PkeyCtx::new_id`. -/
inductive KeyCap where
  | noneBound
  | publicOnly
  | publicPrivate
deriving DecidableEq

/-- The `HasPublic` marker trait bound: public-only and public+private key
types implement it. -/
def hasPublic : KeyCap → Bool
  | .noneBound => false
  | .publicOnly => true
  | .publicPrivate => true

/-- The `HasPrivate` marker trait bound: only key types with private
material implement it. -/
def hasPrivate : KeyCap → Bool
  | .noneBound => false
  | .publicOnly => false
  | .publicPrivate => true

/-- The methods `PkeyCtxRef` exposes. -/
inductive CtxOp where
  | encryptInit
  | encryptOp
  | encryptToVec
  | decryptInit
  | deriveInit
  | deriveSetPeer
  | decryptOp
  | decryptToVec
  | deriveOp
  | deriveToVec
  | keygenInit
  | rsaPaddingGet
  | rsaPaddingSet
  | setRsaMgf1Md
  | setRsaOaepMd
  | setRsaOaepLabel
  | setKeygenCipher
  | setKeygenMacKey
  | keygenOp
deriving DecidableEq

/-- The three `impl` blocks of pkey_ctx.rs that declare `PkeyCtxRef<T>`
methods: `where T: HasPublic` (lines 82-127), `where T: HasPrivate`
(lines 129-225), and the unconstrained block (lines 227-368). -/
inductive ImplBlock where
  | hasPublicBlock
  | hasPrivateBlock
  | unconstrainedBlock
deriving DecidableEq

/-- In which `impl` block each method is declared, read off the source. -/
def implBlock : CtxOp → ImplBlock
  | .encryptInit => .hasPublicBlock
  | .encryptOp => .hasPublicBlock
  | .encryptToVec => .hasPublicBlock
  | .decryptInit => .hasPrivateBlock
  | .deriveInit => .hasPrivateBlock
  | .deriveSetPeer => .hasPrivateBlock
  | .decryptOp => .hasPrivateBlock
  | .decryptToVec => .hasPrivateBlock
  | .deriveOp => .hasPrivateBlock
  | .deriveToVec => .hasPrivateBlock
  | .keygenInit => .unconstrainedBlock
  | .rsaPaddingGet => .unconstrainedBlock
  | .rsaPaddingSet => .unconstrainedBlock
  | .setRsaMgf1Md => .unconstrainedBlock
  | .setRsaOaepMd => .unconstrainedBlock
  | .setRsaOaepLabel => .unconstrainedBlock
  | .setKeygenCipher => .unconstrainedBlock
  | .setKeygenMacKey => .unconstrainedBlock
  | .keygenOp => .unconstrainedBlock

/-- The trait bound an `impl` block imposes on the phantom tag. -/
def blockBound : ImplBlock → KeyCap → Bool
  | .hasPublicBlock, c => hasPublic c
  | .hasPrivateBlock, c => hasPrivate c
  | .unconstrainedBlock, _ => true

/-- A method is statically invocable on `PkeyCtxRef<T>` exactly when the
trait bound of its declaring `impl` block holds for the phantom tag `T`;
the tag is the only input, there being no runtime capability field. -/
def available (op : CtxOp) (c : KeyCap) : Bool := blockBound (implBlock op) c

/-- Unfolding of `encrypt_to_vec` when the size query is a genuine upper
bound: the wrapper succeeds, appends exactly the ciphertext and returns the
count of bytes the real call wrote. -/
theorem encrypt_to_vec_spec (e : Engine) (input out : List Nat)
    (hb : (e.enc input).length ≤ e.encBound input) :
    encrypt_to_vec e input out = .ok ((e.enc input).length, out ++ e.enc input, e) := by
  have h1 : vecResize out (out.length + e.encBound input)
      = out ++ List.replicate (e.encBound input) 0 := vecResize_append out _
  simp only [encrypt_to_vec, encrypt, EVP_PKEY_encrypt, h1, List.drop_left,
    List.length_replicate, hb, if_true, Option.getD_some, List.take_left,
    List.drop_replicate, if_pos hb]
  rw [take_len_append]

/-- Unfolding of `decrypt_to_vec` under the same bound hypothesis. -/
theorem decrypt_to_vec_spec (e : Engine) (input out : List Nat)
    (hb : (e.dec input).length ≤ e.decBound input) :
    decrypt_to_vec e input out = .ok ((e.dec input).length, out ++ e.dec input, e) := by
  have h1 : vecResize out (out.length + e.decBound input)
      = out ++ List.replicate (e.decBound input) 0 := vecResize_append out _
  simp only [decrypt_to_vec, decrypt, EVP_PKEY_decrypt, h1, List.drop_left,
    List.length_replicate, hb, if_true, Option.getD_some, List.take_left,
    List.drop_replicate, if_pos hb]
  rw [take_len_append]

/-- Unfolding of `derive_to_vec` under the same bound hypothesis. -/
theorem derive_to_vec_spec (e : Engine) (out : List Nat)
    (hb : e.der.length ≤ e.derBound) :
    derive_to_vec e out = .ok (e.der.length, out ++ e.der, e) := by
  have h1 : vecResize out (out.length + e.derBound)
      = out ++ List.replicate e.derBound 0 := vecResize_append out _
  simp only [derive_to_vec, derive, EVP_PKEY_derive, h1, List.drop_left,
    List.length_replicate, hb, if_true, Option.getD_some, List.take_left,
    List.drop_replicate, if_pos hb]
  rw [take_len_append]

/-! ## Claim theorems -/

/-- C1: for every label whose length fits the provider's signed length
parameter, `set_rsa_oaep_label` first heap-allocates a copy for the
provider; when the provider handoff succeeds the provider owns that block
and nothing is freed, and when the handoff fails the implementation itself
frees the just-allocated block exactly once before returning the error —
the live set returns to its pre-call value (no leak) and the block's free
events number exactly one (no double release). -/
theorem set_rsa_oaep_label_no_leak_no_double_free
    (st : OaepCtx) (label : List Nat) (accepts : Bool)
    (hlen : label.length < 2 ^ 31)
    (hwf : ∀ q ∈ st.heap.freeEvents, q < st.heap.nextId) :
    ∃ r st', set_rsa_oaep_label accepts st label = some (r, st') ∧
      (accepts = true →
        r = .ok () ∧ st'.providerLabel = some st.heap.nextId ∧
        st'.heap.freeEvents = st.heap.freeEvents ∧
        st'.heap.live = st.heap.nextId :: st.heap.live) ∧
      (accepts = false →
        r = .error .engineError ∧
        st'.heap.live = st.heap.live ∧
        st'.heap.freeEvents.count st.heap.nextId = 1) := by
  have hfree : st.heap.freeEvents.count st.heap.nextId = 0 :=
    List.count_eq_zero.mpr fun hmem => absurd (hwf _ hmem) (lt_irrefl _)
  cases accepts with
  | true =>
      refine ⟨.ok (),
        ⟨⟨st.heap.nextId + 1, st.heap.nextId :: st.heap.live,
          st.heap.freeEvents⟩, some st.heap.nextId⟩, ?_, ?_, ?_⟩
      · unfold set_rsa_oaep_label
        rw [if_pos hlen]
        rfl
      · intro _
        exact ⟨rfl, rfl, rfl, rfl⟩
      · intro h
        cases h
  | false =>
      refine ⟨.error .engineError,
        ⟨⟨st.heap.nextId + 1, (st.heap.nextId :: st.heap.live).erase st.heap.nextId,
          st.heap.nextId :: st.heap.freeEvents⟩, st.providerLabel⟩, ?_, ?_, ?_⟩
      · unfold set_rsa_oaep_label
        rw [if_pos hlen]
        rfl
      · intro h
        cases h
      · intro _
        refine ⟨rfl, ?_, ?_⟩
        · show (st.heap.nextId :: st.heap.live).erase st.heap.nextId = st.heap.live
          exact List.erase_cons_head st.heap.nextId st.heap.live
        · show (st.heap.nextId :: st.heap.freeEvents).count st.heap.nextId = 1
          simp [hfree]

/-- C1 witness: the failure path at a concrete context and label. -/
theorem set_rsa_oaep_label_no_leak_no_double_free_witness :
    ∃ r st', set_rsa_oaep_label false ⟨⟨0, [], []⟩, none⟩ [1, 2, 3] = some (r, st') ∧
      (false = true →
        r = .ok () ∧ st'.providerLabel = some (0 : Nat) ∧
        st'.heap.freeEvents = ([] : List Nat) ∧
        st'.heap.live = [0]) ∧
      (false = false →
        r = .error .engineError ∧
        st'.heap.live = ([] : List Nat) ∧
        st'.heap.freeEvents.count 0 = 1) :=
  set_rsa_oaep_label_no_leak_no_double_free ⟨⟨0, [], []⟩, none⟩ [1, 2, 3] false
    (by decide) (by simp)

/-- C2 counterexample: at a key whose length (2^31) is not representable
as a 32-bit signed integer, `set_keygen_mac_key` does not return at all —
the `unwrap` of the failed `c_int` conversion panics, modelled as `none` —
so in particular it does not return the `InvalidLength` error the claim
names. -/
theorem set_keygen_mac_key_overflow_panics_cex :
    set_keygen_mac_key true ⟨none⟩ (List.replicate (2 ^ 31) 0) = none := by
  unfold set_keygen_mac_key
  rw [List.length_replicate, if_neg (lt_irrefl (2 ^ 31))]

/-- C2 amended: for every caller-supplied byte sequence whose length cannot
be represented as a 32-bit signed integer, `set_keygen_mac_key` (and
likewise `set_rsa_oaep_label`) panics on the failed `c_int::try_from`
`unwrap`, before any native call and whatever the provider's verdict would
have been, rather than returning an error value. -/
theorem oversized_length_panics (accepts : Bool) (kst : KeygenCtx)
    (ost : OaepCtx) (key label : List Nat)
    (hk : 2 ^ 31 ≤ key.length) (hl : 2 ^ 31 ≤ label.length) :
    set_keygen_mac_key accepts kst key = none ∧
    set_rsa_oaep_label accepts ost label = none := by
  constructor
  · unfold set_keygen_mac_key
    rw [if_neg (Nat.not_lt.mpr hk)]
  · unfold set_rsa_oaep_label
    rw [if_neg (Nat.not_lt.mpr hl)]

/-- C2 amended witness: a concrete oversized byte sequence. -/
theorem oversized_length_panics_witness :
    set_keygen_mac_key true ⟨none⟩ (List.replicate (2 ^ 31) 1) = none ∧
    set_rsa_oaep_label true ⟨⟨0, [], []⟩, none⟩ (List.replicate (2 ^ 31) 1) = none :=
  oversized_length_panics true ⟨none⟩ ⟨⟨0, [], []⟩, none⟩
    (List.replicate (2 ^ 31) 1) (List.replicate (2 ^ 31) 1)
    (by rw [List.length_replicate]) (by rw [List.length_replicate])

/-- C3: evaluated at the failing names, the source's flag table does not
preserve the provider's constants: `X509_V_FLAG_X509_STRICT` is bound to
the provider's IGNORE_CRITICAL bit and vice versa, and `SUITEB_192_LOS`
and `SUITEB_128_LOS` are bound to each other's provider values — while an
unaffected name such as `CRL_CHECK` does keep its provider value. -/
theorem x509_verify_flags_swapped_at_failing_names :
    X509VerifyFlags.X509_V_FLAG_X509_STRICT = ffi.X509_V_FLAG_IGNORE_CRITICAL ∧
    X509VerifyFlags.X509_V_FLAG_X509_STRICT ≠ ffi.X509_V_FLAG_X509_STRICT ∧
    X509VerifyFlags.X509_V_FLAG_IGNORE_CRITICAL = ffi.X509_V_FLAG_X509_STRICT ∧
    X509VerifyFlags.X509_V_FLAG_IGNORE_CRITICAL ≠ ffi.X509_V_FLAG_IGNORE_CRITICAL ∧
    X509VerifyFlags.X509_V_FLAG_SUITEB_192_LOS = ffi.X509_V_FLAG_SUITEB_128_LOS ∧
    X509VerifyFlags.X509_V_FLAG_SUITEB_192_LOS ≠ ffi.X509_V_FLAG_SUITEB_192_LOS ∧
    X509VerifyFlags.X509_V_FLAG_SUITEB_128_LOS = ffi.X509_V_FLAG_SUITEB_192_LOS ∧
    X509VerifyFlags.X509_V_FLAG_SUITEB_128_LOS ≠ ffi.X509_V_FLAG_SUITEB_128_LOS ∧
    X509VerifyFlags.X509_V_FLAG_CRL_CHECK = ffi.X509_V_FLAG_CRL_CHECK := by
  decide

/-- A concrete engine used by the closed instantiations below: encryption
prepends a zero byte, decryption drops it, the size queries over-report by
two, and derivation yields two bytes against a bound of three. -/
def toyEngine : Engine where
  encBound l := l.length + 3
  enc l := 0 :: l
  decBound l := l.length
  dec l := l.drop 1
  derBound := 3
  der := [7, 7]

/-- C4: whenever the provider's encrypt and decrypt directions carry
matching tuning — stated as the provider-contract hypotheses that the size
queries bound the outputs and that decrypting the ciphertext of `pt` gives
back `pt` — the layer's round trip through `encrypt_to_vec` followed by
`decrypt_to_vec` returns exactly `pt`. -/
theorem decrypt_encrypt_roundtrip (e : Engine) (pt : List Nat)
    (hbe : (e.enc pt).length ≤ e.encBound pt)
    (hbd : (e.dec (e.enc pt)).length ≤ e.decBound (e.enc pt))
    (hrt : e.dec (e.enc pt) = pt) :
    ∃ ct, encrypt_to_vec e pt [] = .ok (ct.length, ct, e) ∧
      decrypt_to_vec e ct [] = .ok (pt.length, pt, e) := by
  refine ⟨e.enc pt, ?_, ?_⟩
  · simpa using encrypt_to_vec_spec e pt [] hbe
  · have h := decrypt_to_vec_spec e (e.enc pt) [] hbd
    rw [hrt] at h
    simpa using h

/-- C4 witness: round trip of the plaintext [5, 6] through the toy
engine. -/
theorem decrypt_encrypt_roundtrip_witness :
    ∃ ct, encrypt_to_vec toyEngine [5, 6] [] = .ok (ct.length, ct, toyEngine) ∧
      decrypt_to_vec toyEngine ct [] = .ok (([5, 6] : List Nat).length, [5, 6], toyEngine) :=
  decrypt_encrypt_roundtrip toyEngine [5, 6] (by decide) (by decide) (by decide)

/-- C5: each to-vec wrapper queries the length with no buffer, grows the
owned vector to that queried length, performs the real call and truncates
to the exact count the real call reports, returning that count; the `≤`
hypotheses only make the query an upper bound, so the wrappers succeed even
when the real call writes strictly fewer bytes than predicted. -/
theorem to_vec_wrappers_query_grow_truncate (e : Engine) (input out : List Nat)
    (hbe : (e.enc input).length ≤ e.encBound input)
    (hbd : (e.dec input).length ≤ e.decBound input)
    (hbr : e.der.length ≤ e.derBound) :
    encrypt_to_vec e input out = .ok ((e.enc input).length, out ++ e.enc input, e) ∧
    decrypt_to_vec e input out = .ok ((e.dec input).length, out ++ e.dec input, e) ∧
    derive_to_vec e out = .ok (e.der.length, out ++ e.der, e) :=
  ⟨encrypt_to_vec_spec e input out hbe, decrypt_to_vec_spec e input out hbd,
    derive_to_vec_spec e out hbr⟩

/-- C5 witness: the toy engine writes strictly fewer bytes than its size
queries predict, and all three wrappers succeed on concrete inputs. -/
theorem to_vec_wrappers_query_grow_truncate_witness :
    encrypt_to_vec toyEngine [1, 2] [] =
      .ok ((toyEngine.enc [1, 2]).length, [] ++ toyEngine.enc [1, 2], toyEngine) ∧
    decrypt_to_vec toyEngine [1, 2] [] =
      .ok ((toyEngine.dec [1, 2]).length, [] ++ toyEngine.dec [1, 2], toyEngine) ∧
    derive_to_vec toyEngine [] =
      .ok (toyEngine.der.length, [] ++ toyEngine.der, toyEngine) :=
  to_vec_wrappers_query_grow_truncate toyEngine [1, 2] []
    (by decide) (by decide) (by decide)

/-- C6: calling a buffer-producing operation with no output buffer returns
an upper bound on the required output length (the count of bytes the real
call would write) and hands back the context state unchanged; consequently
a second `None` call with no intervening state change — run on exactly the
state the first call returned — yields the same result. -/
theorem size_query_pure_and_idempotent (e : Engine) (input : List Nat)
    (hbe : (e.enc input).length ≤ e.encBound input)
    (hbd : (e.dec input).length ≤ e.decBound input)
    (hbr : e.der.length ≤ e.derBound) :
    (∃ n, encrypt e input none = .ok (n, none, e) ∧ (e.enc input).length ≤ n) ∧
    (∃ n, decrypt e input none = .ok (n, none, e) ∧ (e.dec input).length ≤ n) ∧
    (∃ n, derive e none = .ok (n, none, e) ∧ e.der.length ≤ n) ∧
    (∀ n b e1, encrypt e input none = .ok (n, b, e1) →
      encrypt e1 input none = .ok (n, b, e1)) ∧
    (∀ n b e1, decrypt e input none = .ok (n, b, e1) →
      decrypt e1 input none = .ok (n, b, e1)) ∧
    (∀ n b e1, derive e none = .ok (n, b, e1) →
      derive e1 none = .ok (n, b, e1)) := by
  refine ⟨⟨e.encBound input, rfl, hbe⟩, ⟨e.decBound input, rfl, hbd⟩,
    ⟨e.derBound, rfl, hbr⟩, ?_, ?_, ?_⟩
  · intro n b e1 h
    have h0 : encrypt e input none = .ok (e.encBound input, none, e) := rfl
    rw [h0] at h
    cases h
    exact rfl
  · intro n b e1 h
    have h0 : decrypt e input none = .ok (e.decBound input, none, e) := rfl
    rw [h0] at h
    cases h
    exact rfl
  · intro n b e1 h
    have h0 : derive e none = .ok (e.derBound, none, e) := rfl
    rw [h0] at h
    cases h
    exact rfl

/-- C6 witness: the size queries on the toy engine. -/
theorem size_query_pure_and_idempotent_witness :
    (∃ n, encrypt toyEngine [4] none = .ok (n, none, toyEngine) ∧
      (toyEngine.enc [4]).length ≤ n) ∧
    (∃ n, decrypt toyEngine [4] none = .ok (n, none, toyEngine) ∧
      (toyEngine.dec [4]).length ≤ n) ∧
    (∃ n, derive toyEngine none = .ok (n, none, toyEngine) ∧
      toyEngine.der.length ≤ n) ∧
    (∀ n b e1, encrypt toyEngine [4] none = .ok (n, b, e1) →
      encrypt e1 [4] none = .ok (n, b, e1)) ∧
    (∀ n b e1, decrypt toyEngine [4] none = .ok (n, b, e1) →
      decrypt e1 [4] none = .ok (n, b, e1)) ∧
    (∀ n b e1, derive toyEngine none = .ok (n, b, e1) →
      derive e1 none = .ok (n, b, e1)) :=
  size_query_pure_and_idempotent toyEngine [4] (by decide) (by decide) (by decide)

/-- Bit-level helper: ORing bits in and then ANDing the same bits out
restores the original word when those bits were not set to begin with. -/
theorem ldiff_lor_cancel (s f : Nat) (hdisj : f &&& s = 0) :
    Nat.ldiff (s ||| f) f = s := by
  apply Nat.eq_of_testBit_eq
  intro k
  have hk : f.testBit k = true → s.testBit k = false := by
    have h := congrArg (fun m => Nat.testBit m k) hdisj
    simpa [Nat.testBit_land] using h
  rw [Nat.testBit_ldiff, Nat.testBit_lor]
  cases hf : f.testBit k <;> cases hs : s.testBit k <;> simp_all

/-- Bit-level helper: ORing the same bits in twice equals ORing them in
once. -/
theorem lor_lor_self (s f : Nat) : s ||| f ||| f = s ||| f := by
  apply Nat.eq_of_testBit_eq
  intro k
  simp [Nat.testBit_lor, Bool.or_assoc]

/-- C7: for every flag value `f` and every stored state — `set_flags` ORs
the given bits into the stored word, `clear_flags` ANDs them out,
`get_flags` returns the current union without modifying it, and setting the
same bits twice equals setting them once; setting then clearing bits
disjoint from the starting state (the one conjunct with that proviso, as
the claim words it: a bit not in `s`) restores `get_flags` to its pre-set
value. -/
theorem verify_flags_bitset_algebra (p : X509VerifyParam) (f : Nat) :
    set_flags p f = .ok ⟨p.flags ||| f⟩ ∧
    clear_flags p f = .ok ⟨Nat.ldiff p.flags f⟩ ∧
    get_flags p = p.flags ∧
    (f &&& p.flags = 0 →
      ∀ p1 p2, set_flags p f = .ok p1 → clear_flags p1 f = .ok p2 →
        get_flags p2 = get_flags p) ∧
    (∀ p1, set_flags p f = .ok p1 → set_flags p1 f = .ok p1) := by
  refine ⟨rfl, rfl, rfl, ?_, ?_⟩
  · intro hdisj p1 p2 h1 h2
    obtain rfl : p1 = ⟨p.flags ||| f⟩ := by
      injection h1 with h
      exact h.symm
    obtain rfl : p2 = ⟨Nat.ldiff (p.flags ||| f) f⟩ := by
      injection h2 with h
      exact h.symm
    show Nat.ldiff (p.flags ||| f) f = p.flags
    exact ldiff_lor_cancel p.flags f hdisj
  · intro p1 h1
    obtain rfl : p1 = ⟨p.flags ||| f⟩ := by
      injection h1 with h
      exact h.symm
    show Except.ok (⟨p.flags ||| f ||| f⟩ : X509VerifyParam) = _
    rw [lor_lor_self]

/-- C7 witness: flag word 0x4 with flag 0x10. -/
theorem verify_flags_bitset_algebra_witness :
    set_flags ⟨4⟩ 16 = .ok ⟨(4 : Nat) ||| 16⟩ ∧
    clear_flags ⟨4⟩ 16 = .ok ⟨Nat.ldiff 4 16⟩ ∧
    get_flags ⟨4⟩ = (⟨4⟩ : X509VerifyParam).flags ∧
    ((16 : Nat) &&& (⟨4⟩ : X509VerifyParam).flags = 0 →
      ∀ p1 p2, set_flags ⟨4⟩ 16 = .ok p1 → clear_flags p1 16 = .ok p2 →
        get_flags p2 = get_flags ⟨4⟩) ∧
    (∀ p1, set_flags ⟨4⟩ 16 = .ok p1 → set_flags p1 16 = .ok p1) :=
  verify_flags_bitset_algebra ⟨4⟩ 16

/-- C8: which operations are statically invocable is a function of the
phantom capability tag alone: the encrypt operations are available exactly
when the bound key exposes public material, and the decrypt and derive
operations exactly when it exposes private material. -/
theorem availability_gated_by_phantom_tag (c : KeyCap) :
    available .encryptInit c = hasPublic c ∧
    available .encryptOp c = hasPublic c ∧
    available .encryptToVec c = hasPublic c ∧
    available .decryptInit c = hasPrivate c ∧
    available .deriveInit c = hasPrivate c ∧
    available .deriveSetPeer c = hasPrivate c ∧
    available .decryptOp c = hasPrivate c ∧
    available .decryptToVec c = hasPrivate c ∧
    available .deriveOp c = hasPrivate c ∧
    available .deriveToVec c = hasPrivate c := by
  cases c <;> decide

/-- C9: `set_ip` supplies the store exactly the address's own octets, with
the byte count fixed by the address family: 4 bytes for a v4 address and 16
bytes for a v6 address. -/
theorem set_ip_supplies_exact_octets (ip : IpAddr) :
    (∀ a, ip = .V4 a →
      set_ip_supplied ip = a.octets ∧ (set_ip_supplied ip).length = 4) ∧
    (∀ a, ip = .V6 a →
      set_ip_supplied ip = a.octets ∧ (set_ip_supplied ip).length = 16) := by
  constructor
  · rintro a rfl
    exact ⟨rfl, rfl⟩
  · rintro a rfl
    have hlen : (Ipv6Addr.octets a).length = 16 := by
      simp [Ipv6Addr.octets]
    constructor
    · show (a.octets).take 16 = a.octets
      rw [← hlen, List.take_length]
    · show ((a.octets).take 16).length = 16
      rw [← hlen, List.take_length, hlen]

/-- C10: with existing contents of length `base`, each to-vec wrapper
keeps the first `base` bytes of the vector unchanged, writes the produced
bytes after them, and returns the count of appended bytes — not the
vector's total length. -/
theorem to_vec_wrappers_preserve_base (e : Engine) (input out : List Nat)
    (hbe : (e.enc input).length ≤ e.encBound input)
    (hbd : (e.dec input).length ≤ e.decBound input)
    (hbr : e.der.length ≤ e.derBound) :
    (∀ n v e2, encrypt_to_vec e input out = .ok (n, v, e2) →
      v.take out.length = out ∧ v.drop out.length = e.enc input ∧
      n = (v.drop out.length).length ∧ v.length = out.length + n) ∧
    (∀ n v e2, decrypt_to_vec e input out = .ok (n, v, e2) →
      v.take out.length = out ∧ v.drop out.length = e.dec input ∧
      n = (v.drop out.length).length ∧ v.length = out.length + n) ∧
    (∀ n v e2, derive_to_vec e out = .ok (n, v, e2) →
      v.take out.length = out ∧ v.drop out.length = e.der ∧
      n = (v.drop out.length).length ∧ v.length = out.length + n) := by
  refine ⟨?_, ?_, ?_⟩
  · intro n v e2 h
    rw [encrypt_to_vec_spec e input out hbe] at h
    obtain ⟨h1, h2, h3⟩ :
        (e.enc input).length = n ∧ out ++ e.enc input = v ∧ e = e2 := by
      simpa using h
    subst h1
    subst h2
    refine ⟨List.take_left out _, List.drop_left out _, ?_, ?_⟩
    · rw [List.drop_left]
    · simp
  · intro n v e2 h
    rw [decrypt_to_vec_spec e input out hbd] at h
    obtain ⟨h1, h2, h3⟩ :
        (e.dec input).length = n ∧ out ++ e.dec input = v ∧ e = e2 := by
      simpa using h
    subst h1
    subst h2
    refine ⟨List.take_left out _, List.drop_left out _, ?_, ?_⟩
    · rw [List.drop_left]
    · simp
  · intro n v e2 h
    rw [derive_to_vec_spec e out hbr] at h
    obtain ⟨h1, h2, h3⟩ :
        e.der.length = n ∧ out ++ e.der = v ∧ e = e2 := by
      simpa using h
    subst h1
    subst h2
    refine ⟨List.take_left out _, List.drop_left out _, ?_, ?_⟩
    · rw [List.drop_left]
    · simp

/-- C10 witness: existing vector contents [8, 9] and input [3] on the toy
engine. -/
theorem to_vec_wrappers_preserve_base_witness :
    (∀ n v e2, encrypt_to_vec toyEngine [3] [8, 9] = .ok (n, v, e2) →
      v.take ([8, 9] : List Nat).length = [8, 9] ∧
      v.drop ([8, 9] : List Nat).length = toyEngine.enc [3] ∧
      n = (v.drop ([8, 9] : List Nat).length).length ∧
      v.length = ([8, 9] : List Nat).length + n) ∧
    (∀ n v e2, decrypt_to_vec toyEngine [3] [8, 9] = .ok (n, v, e2) →
      v.take ([8, 9] : List Nat).length = [8, 9] ∧
      v.drop ([8, 9] : List Nat).length = toyEngine.dec [3] ∧
      n = (v.drop ([8, 9] : List Nat).length).length ∧
      v.length = ([8, 9] : List Nat).length + n) ∧
    (∀ n v e2, derive_to_vec toyEngine [8, 9] = .ok (n, v, e2) →
      v.take ([8, 9] : List Nat).length = [8, 9] ∧
      v.drop ([8, 9] : List Nat).length = toyEngine.der ∧
      n = (v.drop ([8, 9] : List Nat).length).length ∧
      v.length = ([8, 9] : List Nat).length + n) :=
  to_vec_wrappers_preserve_base toyEngine [3] [8, 9]
    (by decide) (by decide) (by decide)

end RustOpenssl
